import Mathlib

/-!
Verification of the `saturating_numbers` crate (`src/lib.rs`).

The crate defines three capability traits (`HasSaturatingAdd`,
`HasSaturatingSub`, `HasSaturatingMul`), a generic one-field wrapper
`SaturatingNumber<T>` that forwards the arithmetic operators to the
capability methods of the contained value, derived structural
equality and ordering, a `Debug` impl that renders the contained value,
and trait bindings for the unsigned widths 32, 64 and 128, each calling
the standard-library saturating intrinsic of that width.

The embedding below mirrors that structure: `w`-bit unsigned values are
naturals below `2 ^ w` (`Fin (2 ^ w)`), the saturating intrinsics are
given by their documented clamping semantics, the traits become type
classes, the wrapper becomes a one-field structure with instances copied
from the derive/impl blocks, and the in-place operators (`+=`, `-=`,
`*=`) become functions returning the new state of the receiver.
-/

/-- Maximum representable value of a `w`-bit unsigned integer
(Rust `uN::MAX`, that is `2 ^ w - 1`). -/
def uintMax (w : Nat) : Nat := 2 ^ w - 1

/-- Values of the `w`-bit unsigned integer type: naturals below `2 ^ w`. -/
abbrev UIntW (w : Nat) : Type := Fin (2 ^ w)

theorem uintMax_lt_two_pow (w : Nat) : uintMax w < 2 ^ w := by
  have h : 0 < 2 ^ w := Nat.pos_pow_of_pos w (by decide)
  unfold uintMax
  omega

theorem uintW_le_max {w : Nat} (a : UIntW w) : a.val ≤ uintMax w := by
  have h := a.isLt
  unfold uintMax
  omega

/-- Rust `uN::saturating_add`: the sum clamped to the width's maximum,
`min (a + b) (uN::MAX)`. -/
def rust_saturating_add {w : Nat} (a b : UIntW w) : UIntW w :=
  ⟨min (a.val + b.val) (uintMax w),
    Nat.lt_of_le_of_lt (Nat.min_le_right _ _) (uintMax_lt_two_pow w)⟩

/-- Rust `uN::saturating_sub`: the difference clamped at zero, which on
naturals is truncated subtraction. -/
def rust_saturating_sub {w : Nat} (a b : UIntW w) : UIntW w :=
  ⟨a.val - b.val, Nat.lt_of_le_of_lt (Nat.sub_le _ _) a.isLt⟩

/-- Rust `uN::saturating_mul`: the product clamped to the width's maximum,
`min (a * b) (uN::MAX)`. -/
def rust_saturating_mul {w : Nat} (a b : UIntW w) : UIntW w :=
  ⟨min (a.val * b.val) (uintMax w),
    Nat.lt_of_le_of_lt (Nat.min_le_right _ _) (uintMax_lt_two_pow w)⟩

/-- Trait `HasSaturatingAdd` of `src/lib.rs`. -/
class HasSaturatingAdd (α : Type) where
  do_saturating_add : α → α → α

/-- Trait `HasSaturatingSub` of `src/lib.rs`. -/
class HasSaturatingSub (α : Type) where
  do_saturating_sub : α → α → α

/-- Trait `HasSaturatingMul` of `src/lib.rs`. -/
class HasSaturatingMul (α : Type) where
  do_saturating_mul : α → α → α

/-- The tuple struct `SaturatingNumber<T>(T)`. -/
structure SaturatingNumber (α : Type) where
  val : α
deriving DecidableEq

/-- The derived `PartialOrd`/`Ord` on a one-field tuple struct compares the
field, so the wrapper order is the order of the contained values. -/
instance {α : Type} [LT α] : LT (SaturatingNumber α) :=
  ⟨fun x y => x.val < y.val⟩

instance {α : Type} [LE α] : LE (SaturatingNumber α) :=
  ⟨fun x y => x.val ≤ y.val⟩

instance {α : Type} [LT α] [h : ∀ a b : α, Decidable (a < b)]
    (x y : SaturatingNumber α) : Decidable (x < y) :=
  h x.val y.val

instance {α : Type} [LE α] [h : ∀ a b : α, Decidable (a ≤ b)]
    (x y : SaturatingNumber α) : Decidable (x ≤ y) :=
  h x.val y.val

/-- The impl `From<T> for SaturatingNumber<T>` (`from` is a Lean keyword,
hence the name): wraps the raw value unchanged. -/
def SaturatingNumber.fromRaw {α : Type} (input : α) : SaturatingNumber α :=
  ⟨input⟩

/-- The impl `Add for SaturatingNumber<T>`: forwards to
`do_saturating_add` on the contained values. -/
instance {α : Type} [Add α] [HasSaturatingAdd α] : Add (SaturatingNumber α) :=
  ⟨fun x rhs => ⟨HasSaturatingAdd.do_saturating_add x.val rhs.val⟩⟩

/-- The impl `AddAssign for SaturatingNumber<T>`, as a function from the
old state of the receiver (and the argument) to its new state. -/
def SaturatingNumber.add_assign {α : Type} [Add α] [HasSaturatingAdd α]
    (x rhs : SaturatingNumber α) : SaturatingNumber α :=
  ⟨HasSaturatingAdd.do_saturating_add x.val rhs.val⟩

/-- The impl `Sub for SaturatingNumber<T>`: forwards to
`do_saturating_sub` on the contained values. -/
instance {α : Type} [Sub α] [HasSaturatingSub α] : Sub (SaturatingNumber α) :=
  ⟨fun x rhs => ⟨HasSaturatingSub.do_saturating_sub x.val rhs.val⟩⟩

/-- The impl `SubAssign for SaturatingNumber<T>`, as a function from the
old state of the receiver (and the argument) to its new state. -/
def SaturatingNumber.sub_assign {α : Type} [Sub α] [HasSaturatingSub α]
    (x rhs : SaturatingNumber α) : SaturatingNumber α :=
  ⟨HasSaturatingSub.do_saturating_sub x.val rhs.val⟩

/-- The impl `Mul for SaturatingNumber<T>`: forwards to
`do_saturating_mul` on the contained values. -/
instance {α : Type} [Mul α] [HasSaturatingMul α] : Mul (SaturatingNumber α) :=
  ⟨fun x rhs => ⟨HasSaturatingMul.do_saturating_mul x.val rhs.val⟩⟩

/-- The impl `MulAssign for SaturatingNumber<T>`, as a function from the
old state of the receiver (and the argument) to its new state. -/
def SaturatingNumber.mul_assign {α : Type} [Mul α] [HasSaturatingMul α]
    (x rhs : SaturatingNumber α) : SaturatingNumber α :=
  ⟨HasSaturatingMul.do_saturating_mul x.val rhs.val⟩

/-- Debug-format capability: Rust `fmt::Debug` modelled as a renderer to
`String`. -/
class DebugFmt (α : Type) where
  fmt : α → String

/-- Rust debug formatting of an unsigned integer prints its decimal
digits. -/
instance {w : Nat} : DebugFmt (UIntW w) :=
  ⟨fun a => toString a.val⟩

/-- The impl `fmt::Debug for SaturatingNumber<T>`: writes the debug
rendering of the contained value, nothing more. -/
instance {α : Type} [DebugFmt α] : DebugFmt (SaturatingNumber α) :=
  ⟨fun x => DebugFmt.fmt x.val⟩

/-- The impl `HasSaturatingAdd for u32`: calls `u32::saturating_add`. -/
instance : HasSaturatingAdd (UIntW 32) := ⟨rust_saturating_add⟩

/-- The impl `HasSaturatingSub for u32`: calls `u32::saturating_sub`. -/
instance : HasSaturatingSub (UIntW 32) := ⟨rust_saturating_sub⟩

/-- The impl `HasSaturatingMul for u32`: calls `u32::saturating_mul`. -/
instance : HasSaturatingMul (UIntW 32) := ⟨rust_saturating_mul⟩

/-- Alias `SaturatingU32`. -/
abbrev SaturatingU32 := SaturatingNumber (UIntW 32)

/-- The impl `HasSaturatingAdd for u64`: calls `u64::saturating_add`. -/
instance : HasSaturatingAdd (UIntW 64) := ⟨rust_saturating_add⟩

/-- The impl `HasSaturatingSub for u64`: calls `u64::saturating_sub`. -/
instance : HasSaturatingSub (UIntW 64) := ⟨rust_saturating_sub⟩

/-- The impl `HasSaturatingMul for u64`: calls `u64::saturating_mul`. -/
instance : HasSaturatingMul (UIntW 64) := ⟨rust_saturating_mul⟩

/-- Alias `SaturatingU64`. -/
abbrev SaturatingU64 := SaturatingNumber (UIntW 64)

/-- The impl `HasSaturatingAdd for u128`: calls `u128::saturating_add`. -/
instance : HasSaturatingAdd (UIntW 128) := ⟨rust_saturating_add⟩

/-- The impl `HasSaturatingSub for u128`: calls `u128::saturating_sub`. -/
instance : HasSaturatingSub (UIntW 128) := ⟨rust_saturating_sub⟩

/-- The impl `HasSaturatingMul for u128`: calls `u128::saturating_mul`. -/
instance : HasSaturatingMul (UIntW 128) := ⟨rust_saturating_mul⟩

/-- Alias `SaturatingU128`. -/
abbrev SaturatingU128 := SaturatingNumber (UIntW 128)

/-! Generic facts about the intrinsics, shared by the per-width claims. -/

theorem rust_saturating_add_val {w : Nat} (a b : UIntW w) :
    (rust_saturating_add a b).val = min (a.val + b.val) (uintMax w) := rfl

theorem rust_saturating_sub_val {w : Nat} (a b : UIntW w) :
    (rust_saturating_sub a b).val = a.val - b.val := rfl

theorem rust_saturating_mul_val {w : Nat} (a b : UIntW w) :
    (rust_saturating_mul a b).val = min (a.val * b.val) (uintMax w) := rfl

theorem rust_saturating_add_comm {w : Nat} (a b : UIntW w) :
    rust_saturating_add a b = rust_saturating_add b a := by
  apply Fin.ext
  show min (a.val + b.val) (uintMax w) = min (b.val + a.val) (uintMax w)
  rw [Nat.add_comm]

theorem rust_saturating_mul_comm {w : Nat} (a b : UIntW w) :
    rust_saturating_mul a b = rust_saturating_mul b a := by
  apply Fin.ext
  show min (a.val * b.val) (uintMax w) = min (b.val * a.val) (uintMax w)
  rw [Nat.mul_comm]

theorem rust_saturating_le_add {w : Nat} (a b : UIntW w) :
    a.val ≤ (rust_saturating_add a b).val :=
  le_min (Nat.le_add_right _ _) (uintW_le_max a)

theorem rust_saturating_sub_add_cancel {w : Nat} (a b : UIntW w)
    (h : b.val ≤ a.val) :
    rust_saturating_add (rust_saturating_sub a b) b = a := by
  apply Fin.ext
  show min (a.val - b.val + b.val) (uintMax w) = a.val
  rw [Nat.sub_add_cancel h, Nat.min_eq_left (uintW_le_max a)]

/-! The claims. -/

/-- C1: for every width in 32, 64, 128 and all wrapper values `x`, `y`,
the contained value of `x + y` is `min (x + y) MAX` computed without
overflow — it saturates at the ceiling and never wraps around. -/
theorem c1_add_is_min_of_sum_and_max :
    (∀ x y : SaturatingU32,
      (x + y).val.val = min (x.val.val + y.val.val) (uintMax 32)) ∧
    (∀ x y : SaturatingU64,
      (x + y).val.val = min (x.val.val + y.val.val) (uintMax 64)) ∧
    (∀ x y : SaturatingU128,
      (x + y).val.val = min (x.val.val + y.val.val) (uintMax 128)) :=
  ⟨fun _ _ => rfl, fun _ _ => rfl, fun _ _ => rfl⟩

/-- C2: for every width in 32, 64, 128 and all wrapper values `x`, `y`,
the contained value of `x - y` is `max (x - y) 0` computed over the
integers — it saturates at the floor and never underflows. -/
theorem c2_sub_is_max_of_diff_and_zero :
    (∀ x y : SaturatingU32,
      ((x - y).val.val : Int) = max ((x.val.val : Int) - (y.val.val : Int)) 0) ∧
    (∀ x y : SaturatingU64,
      ((x - y).val.val : Int) = max ((x.val.val : Int) - (y.val.val : Int)) 0) ∧
    (∀ x y : SaturatingU128,
      ((x - y).val.val : Int) = max ((x.val.val : Int) - (y.val.val : Int)) 0) := by
  refine ⟨fun x y => ?_, fun x y => ?_, fun x y => ?_⟩ <;>
    · show ((x.val.val - y.val.val : Nat) : Int) = _
      omega

/-- C3: for every width in 32, 64, 128 and all wrapper values `x`, `y`,
the contained value of `x * y` is `min (x * y) MAX`, clamped to that
width's own maximum. -/
theorem c3_mul_is_min_of_product_and_max :
    (∀ x y : SaturatingU32,
      (x * y).val.val = min (x.val.val * y.val.val) (uintMax 32)) ∧
    (∀ x y : SaturatingU64,
      (x * y).val.val = min (x.val.val * y.val.val) (uintMax 64)) ∧
    (∀ x y : SaturatingU128,
      (x * y).val.val = min (x.val.val * y.val.val) (uintMax 128)) :=
  ⟨fun _ _ => rfl, fun _ _ => rfl, fun _ _ => rfl⟩

/-- C4: for every underlying type and all raw values `a`, `b`, the
wrappers built from `a` and `b` compare (equality and each order
relation) exactly as `a` and `b` do. -/
theorem c4_compare_matches_underlying :
    ∀ (α : Type) [LT α] [LE α] (a b : α),
      ((SaturatingNumber.mk a = SaturatingNumber.mk b) ↔ a = b) ∧
      ((SaturatingNumber.mk a < SaturatingNumber.mk b) ↔ a < b) ∧
      ((SaturatingNumber.mk a ≤ SaturatingNumber.mk b) ↔ a ≤ b) ∧
      ((SaturatingNumber.mk a > SaturatingNumber.mk b) ↔ a > b) ∧
      ((SaturatingNumber.mk a ≥ SaturatingNumber.mk b) ↔ a ≥ b) := by
  intro α _ _ a b
  refine ⟨?_, Iff.rfl, Iff.rfl, Iff.rfl, Iff.rfl⟩
  exact ⟨fun h => congrArg SaturatingNumber.val h, fun h => congrArg SaturatingNumber.mk h⟩

/-- C5: for every width in 32, 64, 128 and all wrapper values `x`, `y`,
the in-place forms leave the receiver holding exactly the value the
binary operator produces (the whole resulting state is equal, so nothing
else is mutated). -/
theorem c5_assign_forms_match_operators :
    (∀ x y : SaturatingU32,
      x.add_assign y = x + y ∧ x.sub_assign y = x - y ∧ x.mul_assign y = x * y) ∧
    (∀ x y : SaturatingU64,
      x.add_assign y = x + y ∧ x.sub_assign y = x - y ∧ x.mul_assign y = x * y) ∧
    (∀ x y : SaturatingU128,
      x.add_assign y = x + y ∧ x.sub_assign y = x - y ∧ x.mul_assign y = x * y) :=
  ⟨fun _ _ => ⟨rfl, rfl, rfl⟩, fun _ _ => ⟨rfl, rfl, rfl⟩, fun _ _ => ⟨rfl, rfl, rfl⟩⟩

/-- C6: every operation is total and in-range: construction keeps the raw
value unchanged, and each arithmetic result stays at or below the
width's maximum (all the embedded operations are total functions). -/
theorem c6_operations_total_in_range :
    (∀ a : UIntW 32, (SaturatingNumber.fromRaw a).val = a) ∧
    (∀ a : UIntW 64, (SaturatingNumber.fromRaw a).val = a) ∧
    (∀ a : UIntW 128, (SaturatingNumber.fromRaw a).val = a) ∧
    (∀ x y : SaturatingU32,
      (x + y).val.val ≤ uintMax 32 ∧ (x - y).val.val ≤ uintMax 32 ∧
        (x * y).val.val ≤ uintMax 32) ∧
    (∀ x y : SaturatingU64,
      (x + y).val.val ≤ uintMax 64 ∧ (x - y).val.val ≤ uintMax 64 ∧
        (x * y).val.val ≤ uintMax 64) ∧
    (∀ x y : SaturatingU128,
      (x + y).val.val ≤ uintMax 128 ∧ (x - y).val.val ≤ uintMax 128 ∧
        (x * y).val.val ≤ uintMax 128) :=
  ⟨fun _ => rfl, fun _ => rfl, fun _ => rfl,
    fun _ _ => ⟨uintW_le_max _, uintW_le_max _, uintW_le_max _⟩,
    fun _ _ => ⟨uintW_le_max _, uintW_le_max _, uintW_le_max _⟩,
    fun _ _ => ⟨uintW_le_max _, uintW_le_max _, uintW_le_max _⟩⟩

/-- C7: for every width in 32, 64, 128 and all wrapper values `x`, `y`,
wrapper addition and multiplication are commutative. -/
theorem c7_add_mul_commutative :
    (∀ x y : SaturatingU32, x + y = y + x ∧ x * y = y * x) ∧
    (∀ x y : SaturatingU64, x + y = y + x ∧ x * y = y * x) ∧
    (∀ x y : SaturatingU128, x + y = y + x ∧ x * y = y * x) :=
  ⟨fun x y => ⟨congrArg SaturatingNumber.mk (rust_saturating_add_comm x.val y.val),
      congrArg SaturatingNumber.mk (rust_saturating_mul_comm x.val y.val)⟩,
    fun x y => ⟨congrArg SaturatingNumber.mk (rust_saturating_add_comm x.val y.val),
      congrArg SaturatingNumber.mk (rust_saturating_mul_comm x.val y.val)⟩,
    fun x y => ⟨congrArg SaturatingNumber.mk (rust_saturating_add_comm x.val y.val),
      congrArg SaturatingNumber.mk (rust_saturating_mul_comm x.val y.val)⟩⟩

/-- C8: the debug rendering of a wrapper is exactly the debug rendering
of its contained value — the bare decimal digits, with no decoration. -/
theorem c8_debug_renders_inner_value :
    (∀ x : SaturatingU32,
      DebugFmt.fmt x = DebugFmt.fmt x.val ∧ DebugFmt.fmt x = toString x.val.val) ∧
    (∀ x : SaturatingU64,
      DebugFmt.fmt x = DebugFmt.fmt x.val ∧ DebugFmt.fmt x = toString x.val.val) ∧
    (∀ x : SaturatingU128,
      DebugFmt.fmt x = DebugFmt.fmt x.val ∧ DebugFmt.fmt x = toString x.val.val) :=
  ⟨fun _ => ⟨rfl, rfl⟩, fun _ => ⟨rfl, rfl⟩, fun _ => ⟨rfl, rfl⟩⟩

/-- C9: for every width in 32, 64, 128 and all wrapper values `x`, `y`,
the arithmetic is monotone in the direction of the operation:
`x ≤ x + y` and `x - y ≤ x` in the wrapper order. -/
theorem c9_add_sub_monotone :
    (∀ x y : SaturatingU32, x ≤ x + y ∧ x - y ≤ x) ∧
    (∀ x y : SaturatingU64, x ≤ x + y ∧ x - y ≤ x) ∧
    (∀ x y : SaturatingU128, x ≤ x + y ∧ x - y ≤ x) :=
  ⟨fun x y => ⟨rust_saturating_le_add x.val y.val, Nat.sub_le _ _⟩,
    fun x y => ⟨rust_saturating_le_add x.val y.val, Nat.sub_le _ _⟩,
    fun x y => ⟨rust_saturating_le_add x.val y.val, Nat.sub_le _ _⟩⟩

/-- C10: for every width in 32, 64, 128 and all wrapper values `x`, `y`
with `y ≤ x`, subtracting and then adding `y` round-trips:
`(x - y) + y = x`. -/
theorem c10_sub_add_roundtrip :
    (∀ x y : SaturatingU32, y ≤ x → (x - y) + y = x) ∧
    (∀ x y : SaturatingU64, y ≤ x → (x - y) + y = x) ∧
    (∀ x y : SaturatingU128, y ≤ x → (x - y) + y = x) :=
  ⟨fun x y h => congrArg SaturatingNumber.mk
      (rust_saturating_sub_add_cancel x.val y.val h),
    fun x y h => congrArg SaturatingNumber.mk
      (rust_saturating_sub_add_cancel x.val y.val h),
    fun x y h => congrArg SaturatingNumber.mk
      (rust_saturating_sub_add_cancel x.val y.val h)⟩

/-- Witness for C10 at the concrete input `x = 5`, `y = 3` of width 64:
the hypothesis `3 ≤ 5` holds and the round-trip gives back `5`. -/
theorem c10_sub_add_roundtrip_witness :
    ((SaturatingNumber.mk (⟨5, by norm_num⟩ : UIntW 64)
        - SaturatingNumber.mk ⟨3, by norm_num⟩)
      + SaturatingNumber.mk ⟨3, by norm_num⟩)
      = SaturatingNumber.mk ⟨5, by norm_num⟩ :=
  c10_sub_add_roundtrip.2.1
    (SaturatingNumber.mk ⟨5, by norm_num⟩)
    (SaturatingNumber.mk ⟨3, by norm_num⟩)
    (by decide)
